import Mathlib

/-!
Shallow embedding of the simulation core of the `simple-snake` game
(`src/lib.rs`).  The ECS resources and queries are modelled by explicit
state passing: a snake is its head direction together with the ordered
list of segment positions (index 0 is the head, exactly as `SnakeSegments`
stores the head entity first, see `spawn_snake`).  Rust's `i32`
coordinates are modelled by `Int` (the arena is 15×15, so arithmetic
overflow of `i32` never matters here), and the `as u32` cast in the
bounds check is modelled explicitly by reduction modulo 2^32.  Events are
modelled as booleans produced/consumed by the corresponding system
functions, and the panics hidden in `unwrap()` calls are modelled by
`Option`: `none` is a panic.  The random number generator
(`rand::thread_rng`) is modelled by an explicit draw: `choose` picks the
element at a uniformly drawn index of the candidate list and fails on an
empty list.
-/

/-- The `Arena(u32, u32)` resource: grid width and height. -/
structure Arena where
  width : Nat
  height : Nat
deriving DecidableEq

/-- The direction type, `enum SnakeState { Left, Right, Down, Up }`. -/
inductive SnakeState where
  | left
  | right
  | down
  | up
deriving DecidableEq

/-- The grid cell type `Position(i32, i32)`. -/
structure Position where
  x : Int
  y : Int
deriving DecidableEq

/-- The `Sub` impl on `Position`: component-wise subtraction. -/
instance : Sub Position where
  sub a b := ⟨a.x - b.x, a.y - b.y⟩

/-- Function `LatestState::get_opposite`. -/
def get_opposite : SnakeState → SnakeState
  | .left => .right
  | .right => .left
  | .down => .up
  | .up => .down

/-- Function `LatestState::switch`: the pending direction becomes `new_state`
unless `new_state` is the opposite of `compared_to` (the head's current
direction), in which case it is left unchanged. -/
def switch (latest new_state compared_to : SnakeState) : SnakeState :=
  if get_opposite compared_to ≠ new_state then new_state else latest

/-- The snake: head direction (`SnakeHead.0`) plus the positions of its
segments in body order, head first (`SnakeSegments` paired with the
`Position` components). -/
structure Snake where
  headDir : SnakeState
  positions : List Position
deriving DecidableEq

/-- One step of the head, the `match head.0` block of `move_snake`:
Left decrements x, Right increments x, Down decrements y, Up
increments y. -/
def step_head (dir : SnakeState) (p : Position) : Position :=
  match dir with
  | .left => ⟨p.x - 1, p.y⟩
  | .right => ⟨p.x + 1, p.y⟩
  | .down => ⟨p.x, p.y - 1⟩
  | .up => ⟨p.x, p.y + 1⟩

/-- Rust's `Vec::contains` on positions. -/
def contains_position (l : List Position) (p : Position) : Bool :=
  l.any (fun q => decide (q = p))

/-- Rust's `i32 as u32` bit-cast, for values in the `i32` range:
reduction modulo 2^32. -/
def asU32 (x : Int) : Nat :=
  (x % 4294967296).toNat

/-- The bounds part of the game-over test in `move_snake`:
`x < 0 || y < 0 || x as u32 >= width || y as u32 >= height`. -/
def out_of_bounds (arena : Arena) (p : Position) : Bool :=
  decide (p.x < 0) || decide (p.y < 0) ||
    decide (arena.width ≤ asU32 p.x) || decide (arena.height ≤ asU32 p.y)

/-- Result of one invocation of the `move_snake` system: the updated
snake, the value written into the `LastTailPosition` resource, and
whether a `GameOverEvent` was sent. -/
structure MoveOutcome where
  snake : Snake
  lastTail : Option Position
  gameOver : Bool
deriving DecidableEq

/-- The `move_snake` system, for the single head (which is segment 0).
It snapshots all segment positions, records the tail's pre-move position
into `LastTailPosition`, commits the pending direction into the head,
moves the head one cell, tests the moved head against the pre-move
snapshot and the arena bounds, and finally shifts every later segment to
the pre-move position of its predecessor (the zip of the snapshot with
the segments after the head assigns snapshot position `i-1` to segment
`i`, which leaves the moved head followed by the snapshot minus its last
element).  `none` models the panic of `last().unwrap()` on a snake with
no segments. -/
def move_snake (arena : Arena) (latest : SnakeState) (s : Snake) : Option MoveOutcome :=
  match s.positions with
  | [] => none
  | p :: rest =>
    let newHead := step_head latest p
    some
      { snake := { headDir := latest, positions := newHead :: (p :: rest).dropLast }
        lastTail := some ((p :: rest).getLast (List.cons_ne_nil p rest))
        gameOver := contains_position (p :: rest) newHead || out_of_bounds arena newHead }

/-- The `grow_snake` system: when a `GrowthEvent` was received, push one
new segment at the `LastTailPosition`.  `none` models the panic of
`last_position.0.unwrap()` when that resource still holds `None`. -/
def grow_snake (segments : List Position) (lastTail : Option Position)
    (growth : Bool) : Option (List Position) :=
  if growth then
    match lastTail with
    | none => none
    | some q => some (segments ++ [q])
  else some segments

/-- The `spawn_snake` system: a fresh two-segment snake, head at the
arena center `((width/2) as i32, (height/2) as i32)` facing Right, and
one body segment at `center - Position(1, 0)`; it also sends a
`FoodEvent` (the caller observes that separately). -/
def spawn_snake (arena : Arena) : Snake :=
  let center : Position := ⟨(arena.width / 2 : Nat), (arena.height / 2 : Nat)⟩
  { headDir := .right
    positions := [center, center - ⟨1, 0⟩] }

/-- The mutable state touched by the `game_over` system: the positioned
entities (snake segments and the food) and the `LatestState` resource. -/
structure GameState where
  snake : Snake
  food : Option Position
  latest : SnakeState
deriving DecidableEq

/-- The `game_over` system: when a `GameOverEvent` was received, despawn
every entity that has a `Position` (all segments and the food), reset
`LatestState` to Right, and run `spawn_snake`; the second component
records whether the `FoodEvent` of `spawn_snake` was sent. -/
def game_over (arena : Arena) (g : GameState) (ev : Bool) : GameState × Bool :=
  if ev then
    ({ snake := spawn_snake arena, food := none, latest := .right }, true)
  else (g, false)

/-- The double loop of `generate_random_position`: every arena cell
`Position(x as i32, y as i32)` for `x in 0..width`, `y in 0..height`. -/
def all_positions (arena : Arena) : List Position :=
  (List.range arena.width).flatMap fun x =>
    (List.range arena.height).map fun (y : Nat) => ⟨(x : Int), (y : Int)⟩

/-- Function `generate_random_position`: filter the taken cells out of the list
of all arena cells and pick a random remaining one.  The thread RNG is
modelled by the arbitrary draw `choice`: `choose` returns the element at
a uniformly drawn index, and `none` models the panic of `unwrap()` on
`choose`'s `None` when no cell remains. -/
def generate_random_position (arena : Arena) (taken : List Position)
    (choice : Nat) : Option Position :=
  let remaining := (all_positions arena).filter fun q => !decide (q ∈ taken)
  remaining[choice % remaining.length]?

/-- The keyboard state read by `update_latest_state`: which of the four
arrow keys are pressed this frame. -/
structure PressedKeys where
  left : Bool
  right : Bool
  up : Bool
  down : Bool
deriving DecidableEq

/-- The `update_latest_state` system: it reads the first head's current
direction with `head.iter().next().unwrap()` — `none` models the panic
of that `unwrap()` when no `SnakeHead` entity exists — and then applies
`switch` once for each pressed arrow key, in the order Left, Right, Up,
Down. -/
def update_latest_state (input : PressedKeys) (latest : SnakeState)
    (heads : List SnakeState) : Option SnakeState :=
  match heads with
  | [] => none
  | headState :: _ =>
    let s1 := if input.left then switch latest .left headState else latest
    let s2 := if input.right then switch s1 .right headState else s1
    let s3 := if input.up then switch s2 .up headState else s2
    let s4 := if input.down then switch s3 .down headState else s3
    some s4

/-- The `snake_eat` system for the single head: if the head's position
equals the live food's position, despawn the food and send a
`GrowthEvent` and a `FoodEvent`.  Returns (remaining food, growth event
sent, food event sent). -/
def snake_eat (headPos : Position) (food : Option Position) :
    Option Position × Bool × Bool :=
  match food with
  | none => (none, false, false)
  | some fp =>
    if headPos = fp then (none, true, true) else (some fp, false, false)

/-- The `spawn_food` system: when a `FoodEvent` was received, place a
new food at a random free cell (`generate_random_position` over the
cells occupied by positioned entities); otherwise the food is unchanged.
The outer `none` models the placement panic on a full arena. -/
def spawn_food (arena : Arena) (occupied : List Position) (foodEv : Bool)
    (oldFood : Option Position) (draw : Nat) : Option (Option Position) :=
  if foodEv then
    match generate_random_position arena occupied draw with
    | none => none
    | some q => some (some q)
  else some oldFood

/-- The whole mutable state of the simulation. -/
structure World where
  snake : Snake
  food : Option Position
  latest : SnakeState
  lastTail : Option Position
deriving DecidableEq

/-- One movement tick of the whole plugin, composing the systems in
their scheduled order: `move_snake`, then `snake_eat`, then `grow_snake`
and `spawn_food`, then `game_over` (which respawns the snake and places
a fresh food).  Command application timing inside the ECS stage is
abstracted: each system sees the state left by the previous one.  `draw`
is the value drawn from the thread RNG if food is placed this tick;
`none` models a panic inside one of the systems. -/
def tick (arena : Arena) (w : World) (draw : Nat) : Option World :=
  match move_snake arena w.latest w.snake with
  | none => none
  | some out =>
    match out.snake.positions with
    | [] => none
    | headPos :: _ =>
      let (food1, growth, foodEv) := snake_eat headPos w.food
      match grow_snake out.snake.positions out.lastTail growth with
      | none => none
      | some segs2 =>
        match spawn_food arena (segs2 ++ food1.toList) foodEv food1 draw with
        | none => none
        | some food2 =>
          if out.gameOver then
            match spawn_food arena (spawn_snake arena).positions true none draw with
            | none => none
            | some food3 =>
              some { snake := spawn_snake arena, food := food3
                     latest := .right, lastTail := out.lastTail }
          else
            some { snake := { headDir := out.snake.headDir, positions := segs2 }
                   food := food2, latest := w.latest, lastTail := out.lastTail }

/-- C3: `switch(r, h)` sets the pending direction to `r` when `r` is not
the opposite of the head direction `h`, and leaves it unchanged when `r`
is exactly `opposite(h)`. -/
theorem switch_pending_direction (latest r h : SnakeState) :
    (r ≠ get_opposite h → switch latest r h = r) ∧
    (r = get_opposite h → switch latest r h = latest) := by
  constructor
  · intro hne
    have : get_opposite h ≠ r := fun he => hne he.symm
    simp [switch, this]
  · intro he
    simp [switch, he]

/-- Concrete instance of the `switch` contract: with head direction
Right, a Left request (the opposite) is dropped while a Right request is
accepted. -/
theorem switch_pending_direction_witness :
    switch .up .left .right = .up ∧ switch .up .right .right = .right :=
  ⟨(switch_pending_direction .up .left .right).2 (by decide),
   (switch_pending_direction .up .right .right).1 (by decide)⟩

/-- Unfolding of `move_snake` on a snake with at least one segment. -/
lemma move_snake_eq (arena : Arena) (latest : SnakeState) (s : Snake)
    (p : Position) (rest : List Position) (h : s.positions = p :: rest) :
    move_snake arena latest s = some
      { snake := { headDir := latest
                   positions := step_head latest p :: (p :: rest).dropLast }
        lastTail := some ((p :: rest).getLast (List.cons_ne_nil p rest))
        gameOver := contains_position (p :: rest) (step_head latest p) ||
          out_of_bounds arena (step_head latest p) } := by
  simp only [move_snake, h]

/-- Indexing a list's `dropLast` below the last index. -/
lemma getElem?_dropLast_of_lt {α : Type} (l : List α) (j : Nat)
    (h : j < l.length - 1) : l.dropLast[j]? = l[j]? := by
  have h1 : j < l.dropLast.length := by
    simp only [List.length_dropLast]
    omega
  have h2 : j < l.length := by omega
  rw [List.getElem?_eq_getElem h1, List.getElem?_eq_getElem h2]
  congr 1
  exact List.getElem_dropLast l j h1

/-- C1: on a movement tick, the head commits the pending direction as
its active direction and moves exactly one cell in that direction
(Left: x-1, Right: x+1, Up: y+1, Down: y-1), and every non-head segment
`i ≥ 1` ends the tick at the pre-move position of segment `i-1`; the
snake's length is unchanged. -/
theorem moveSnake_head_and_body (arena : Arena) (latest : SnakeState)
    (s : Snake) (p : Position) (rest : List Position)
    (h : s.positions = p :: rest) :
    ∃ out, move_snake arena latest s = some out ∧
      out.snake.headDir = latest ∧
      out.snake.positions.length = s.positions.length ∧
      out.snake.positions[0]? = some (match latest with
        | .left => ⟨p.x - 1, p.y⟩
        | .right => ⟨p.x + 1, p.y⟩
        | .down => ⟨p.x, p.y - 1⟩
        | .up => ⟨p.x, p.y + 1⟩) ∧
      ∀ i, 1 ≤ i → i < s.positions.length →
        out.snake.positions[i]? = s.positions[i - 1]? := by
  refine ⟨_, move_snake_eq arena latest s p rest h, rfl, ?_, ?_, ?_⟩
  · simp [h]
  · show (step_head latest p :: (p :: rest).dropLast)[0]? = _
    rw [List.getElem?_cons_zero]
    cases latest <;> rfl
  · intro i h1 hi
    obtain ⟨j, rfl⟩ : ∃ j, i = j + 1 :=
      ⟨i - 1, (Nat.succ_pred_eq_of_pos h1).symm⟩
    show (step_head latest p :: (p :: rest).dropLast)[j + 1]? =
      s.positions[j + 1 - 1]?
    rw [h, List.getElem?_cons_succ, Nat.add_sub_cancel]
    refine getElem?_dropLast_of_lt (p :: rest) j ?_
    rw [h] at hi
    simp only [List.length_cons] at hi ⊢
    omega

/-- Concrete instance of C1: a two-segment snake facing Right at
(2,2)–(1,2) with pending direction Up moves its head to (2,3) and its
second segment to (2,2). -/
theorem moveSnake_head_and_body_witness :
    ∃ out, move_snake ⟨15, 15⟩ .up ⟨.right, [⟨2, 2⟩, ⟨1, 2⟩]⟩ = some out ∧
      out.snake.headDir = .up ∧
      out.snake.positions.length = ([⟨2, 2⟩, ⟨1, 2⟩] : List Position).length ∧
      out.snake.positions[0]? = some (⟨2, 2 + 1⟩ : Position) ∧
      ∀ i, 1 ≤ i → i < ([⟨2, 2⟩, ⟨1, 2⟩] : List Position).length →
        out.snake.positions[i]? = ([⟨2, 2⟩, ⟨1, 2⟩] : List Position)[i - 1]? :=
  moveSnake_head_and_body ⟨15, 15⟩ .up ⟨.right, [⟨2, 2⟩, ⟨1, 2⟩]⟩ ⟨2, 2⟩
    [⟨1, 2⟩] rfl

/-- For a coordinate in the `i32` range, the `as u32` comparison of the
bounds check agrees with the mathematical comparison once the negative
case is split off. -/
lemma asU32_bound_iff (w : Nat) (z : Int) (hz : z < 4294967296) :
    (z < 0 ∨ w ≤ asU32 z) ↔ (z < 0 ∨ (w : Int) ≤ z) := by
  by_cases h0 : z < 0
  · simp [h0]
  · push_neg at h0
    have hcast : asU32 z = z.toNat := by
      unfold asU32
      rw [Int.emod_eq_of_lt h0 hz]
    simp only [hcast]
    rw [Int.le_toNat h0]

/-- The game-over test of `move_snake`, as a proposition: the boolean
condition holds iff the moved head hits the snapshot or leaves the
arena. -/
lemma gameOver_cond_iff (arena : Arena) (l : List Position) (q : Position)
    (hx : q.x < 4294967296) (hy : q.y < 4294967296) :
    (contains_position l q || out_of_bounds arena q) = true ↔
      (q ∈ l ∨ q.x < 0 ∨ q.y < 0 ∨
        (arena.width : Int) ≤ q.x ∨ (arena.height : Int) ≤ q.y) := by
  have hxiff := asU32_bound_iff arena.width q.x hx
  have hyiff := asU32_bound_iff arena.height q.y hy
  simp only [contains_position, out_of_bounds, Bool.or_eq_true,
    List.any_eq_true, decide_eq_true_eq, exists_eq_right, or_assoc]
  constructor
  · rintro (hm | hx0 | hy0 | hxw | hyh)
    · exact Or.inl hm
    · exact Or.inr (Or.inl hx0)
    · exact Or.inr (Or.inr (Or.inl hy0))
    · rcases hxiff.mp (Or.inr hxw) with h' | h'
      · exact Or.inr (Or.inl h')
      · exact Or.inr (Or.inr (Or.inr (Or.inl h')))
    · rcases hyiff.mp (Or.inr hyh) with h' | h'
      · exact Or.inr (Or.inr (Or.inl h'))
      · exact Or.inr (Or.inr (Or.inr (Or.inr h')))
  · rintro (hm | hx0 | hy0 | hxw | hyh)
    · exact Or.inl hm
    · exact Or.inr (Or.inl hx0)
    · exact Or.inr (Or.inr (Or.inl hy0))
    · rcases hxiff.mpr (Or.inr hxw) with h' | h'
      · exact Or.inr (Or.inl h')
      · exact Or.inr (Or.inr (Or.inr (Or.inl h')))
    · rcases hyiff.mpr (Or.inr hyh) with h' | h'
      · exact Or.inr (Or.inr (Or.inl h'))
      · exact Or.inr (Or.inr (Or.inr (Or.inr h')))

/-- C2: a movement tick emits a `GameOverEvent` iff the post-move head
position hits the pre-move snapshot of all segment positions (head and
tail included) or leaves the arena (x < 0, y < 0, x ≥ width or
y ≥ height).  The coordinate bounds hypotheses record that the
coordinates fit in `i32` (they are tiny in the actual game). -/
theorem moveSnake_gameOver_iff (arena : Arena) (latest : SnakeState)
    (s : Snake) (p : Position) (rest : List Position)
    (h : s.positions = p :: rest)
    (hx : (step_head latest p).x < 4294967296)
    (hy : (step_head latest p).y < 4294967296) :
    ∃ out, move_snake arena latest s = some out ∧
      (out.gameOver = true ↔
        step_head latest p ∈ s.positions ∨
        (step_head latest p).x < 0 ∨ (step_head latest p).y < 0 ∨
        (arena.width : Int) ≤ (step_head latest p).x ∨
        (arena.height : Int) ≤ (step_head latest p).y) := by
  refine ⟨_, move_snake_eq arena latest s p rest h, ?_⟩
  show (contains_position (p :: rest) (step_head latest p) ||
    out_of_bounds arena (step_head latest p)) = true ↔ _
  rw [h]
  exact gameOver_cond_iff arena (p :: rest) (step_head latest p) hx hy

/-- Concrete instance of C2: a snake whose head at (14,7) moves Right to
(15,7) in a 15×15 arena triggers a game over, and the boundary
disjunction holds. -/
theorem moveSnake_gameOver_iff_witness :
    ∃ out, move_snake ⟨15, 15⟩ .right ⟨.right, [⟨14, 7⟩, ⟨13, 7⟩]⟩ = some out ∧
      (out.gameOver = true ↔
        step_head .right ⟨14, 7⟩ ∈ ([⟨14, 7⟩, ⟨13, 7⟩] : List Position) ∨
        (step_head .right ⟨14, 7⟩).x < 0 ∨ (step_head .right ⟨14, 7⟩).y < 0 ∨
        ((15 : Nat) : Int) ≤ (step_head .right ⟨14, 7⟩).x ∨
        ((15 : Nat) : Int) ≤ (step_head .right ⟨14, 7⟩).y) :=
  moveSnake_gameOver_iff ⟨15, 15⟩ .right ⟨.right, [⟨14, 7⟩, ⟨13, 7⟩]⟩
    ⟨14, 7⟩ [⟨13, 7⟩] rfl (by decide) (by decide)

/-- Lemma: `contains_position` agrees with list membership. -/
lemma contains_position_iff (l : List Position) (q : Position) :
    contains_position l q = true ↔ q ∈ l := by
  simp [contains_position, List.any_eq_true]

/-- C4: the `LastTailPosition` recorded by a movement tick is the cell
the tail occupied immediately before the move, and handling a
`GrowthEvent` appends exactly one segment at that position, so the
snake's length increases by exactly 1. -/
theorem growSnake_appends_lastTail (arena : Arena) (latest : SnakeState)
    (s : Snake) (p : Position) (rest : List Position)
    (h : s.positions = p :: rest) (out : MoveOutcome)
    (hout : move_snake arena latest s = some out) :
    out.lastTail = some ((p :: rest).getLast (List.cons_ne_nil p rest)) ∧
    grow_snake out.snake.positions out.lastTail true =
      some (out.snake.positions ++
        [(p :: rest).getLast (List.cons_ne_nil p rest)]) ∧
    ∀ segs2, grow_snake out.snake.positions out.lastTail true = some segs2 →
      segs2.length = out.snake.positions.length + 1 := by
  rw [move_snake_eq arena latest s p rest h] at hout
  obtain rfl : out = _ := (Option.some_injective _ hout).symm
  refine ⟨rfl, rfl, ?_⟩
  intro segs2 hseg
  obtain rfl : _ = segs2 := Option.some_injective _ hseg
  simp

/-- Concrete instance of C4: after the (2,2)–(1,2) snake moves Up, the
recorded tail cell is (1,2) and growing appends one segment there. -/
theorem growSnake_appends_lastTail_witness :
    (⟨⟨.up, [⟨2, 3⟩, ⟨2, 2⟩]⟩, some ⟨1, 2⟩, false⟩ : MoveOutcome).lastTail =
      some (([⟨2, 2⟩, ⟨1, 2⟩] : List Position).getLast
        (List.cons_ne_nil (⟨2, 2⟩ : Position) [⟨1, 2⟩])) ∧
    grow_snake
        (⟨⟨.up, [⟨2, 3⟩, ⟨2, 2⟩]⟩, some ⟨1, 2⟩, false⟩ : MoveOutcome).snake.positions
        (⟨⟨.up, [⟨2, 3⟩, ⟨2, 2⟩]⟩, some ⟨1, 2⟩, false⟩ : MoveOutcome).lastTail
        true =
      some ((⟨⟨.up, [⟨2, 3⟩, ⟨2, 2⟩]⟩, some ⟨1, 2⟩, false⟩ :
          MoveOutcome).snake.positions ++
        [([⟨2, 2⟩, ⟨1, 2⟩] : List Position).getLast
          (List.cons_ne_nil (⟨2, 2⟩ : Position) [⟨1, 2⟩])]) ∧
    ∀ segs2,
      grow_snake
        (⟨⟨.up, [⟨2, 3⟩, ⟨2, 2⟩]⟩, some ⟨1, 2⟩, false⟩ : MoveOutcome).snake.positions
        (⟨⟨.up, [⟨2, 3⟩, ⟨2, 2⟩]⟩, some ⟨1, 2⟩, false⟩ : MoveOutcome).lastTail
        true = some segs2 →
      segs2.length =
        (⟨⟨.up, [⟨2, 3⟩, ⟨2, 2⟩]⟩, some ⟨1, 2⟩, false⟩ :
          MoveOutcome).snake.positions.length + 1 :=
  growSnake_appends_lastTail ⟨15, 15⟩ .up ⟨.right, [⟨2, 2⟩, ⟨1, 2⟩]⟩ ⟨2, 2⟩
    [⟨1, 2⟩] rfl _ rfl

/-- C7: a movement tick on which no `GameOverEvent` fires preserves
pairwise-distinct segment positions, and so does the growth step that
may follow it in the same tick. -/
theorem moveSnake_growSnake_preserve_nodup (arena : Arena)
    (latest : SnakeState) (s : Snake) (p : Position) (rest : List Position)
    (h : s.positions = p :: rest) (hnd : s.positions.Nodup)
    (out : MoveOutcome) (hout : move_snake arena latest s = some out)
    (hsafe : out.gameOver = false) :
    out.snake.positions.Nodup ∧
    ∀ segs2, grow_snake out.snake.positions out.lastTail true = some segs2 →
      segs2.Nodup := by
  rw [move_snake_eq arena latest s p rest h] at hout
  obtain rfl : out = _ := (Option.some_injective _ hout).symm
  rw [h] at hnd
  have hc : contains_position (p :: rest) (step_head latest p) = false := by
    have hsafe' : (contains_position (p :: rest) (step_head latest p) ||
        out_of_bounds arena (step_head latest p)) = false := hsafe
    exact (Bool.or_eq_false_iff.mp hsafe').1
  have hm : step_head latest p ∉ p :: rest := by
    intro hmem
    rw [(contains_position_iff _ _).mpr hmem] at hc
    exact Bool.noConfusion hc
  have hdropnd : ((p :: rest).dropLast).Nodup :=
    (List.dropLast_sublist (p :: rest)).nodup hnd
  have hheadnd :
      (step_head latest p :: (p :: rest).dropLast).Nodup := by
    rw [List.nodup_cons]
    exact ⟨fun hmem => hm ((List.dropLast_sublist (p :: rest)).subset hmem),
      hdropnd⟩
  refine ⟨hheadnd, ?_⟩
  intro segs2 hseg
  obtain rfl : _ = segs2 := Option.some_injective _ hseg
  rw [List.cons_append, List.dropLast_append_getLast (List.cons_ne_nil p rest),
    List.nodup_cons]
  exact ⟨hm, hnd⟩

/-- Concrete instance of C7: the (2,2)–(1,2) snake after an Up tick has
distinct segment positions, before and after growing. -/
theorem moveSnake_growSnake_preserve_nodup_witness :
    (⟨⟨.up, [⟨2, 3⟩, ⟨2, 2⟩]⟩, some ⟨1, 2⟩, false⟩ :
      MoveOutcome).snake.positions.Nodup ∧
    ∀ segs2,
      grow_snake
        (⟨⟨.up, [⟨2, 3⟩, ⟨2, 2⟩]⟩, some ⟨1, 2⟩, false⟩ : MoveOutcome).snake.positions
        (⟨⟨.up, [⟨2, 3⟩, ⟨2, 2⟩]⟩, some ⟨1, 2⟩, false⟩ : MoveOutcome).lastTail
        true = some segs2 →
      segs2.Nodup :=
  moveSnake_growSnake_preserve_nodup ⟨15, 15⟩ .up ⟨.right, [⟨2, 2⟩, ⟨1, 2⟩]⟩
    ⟨2, 2⟩ [⟨1, 2⟩] rfl (by decide) _ rfl rfl

/-- C10: growing panics exactly when no movement tick has run yet:
`grow_snake` fails on the initial `None` tail position, succeeds on any
recorded tail position, and every successful movement tick records a
`some` tail position. -/
theorem growSnake_requires_prior_move :
    (∀ segments, grow_snake segments none true = none) ∧
    (∀ segments q, grow_snake segments (some q) true =
      some (segments ++ [q])) ∧
    (∀ (arena : Arena) (latest : SnakeState) (s : Snake) (out : MoveOutcome),
      move_snake arena latest s = some out → out.lastTail.isSome = true) := by
  refine ⟨fun _ => rfl, fun _ _ => rfl, ?_⟩
  intro arena latest s out hout
  cases hps : s.positions with
  | nil =>
    simp only [move_snake, hps] at hout
    exact Option.noConfusion hout
  | cons p rest =>
    rw [move_snake_eq arena latest s p rest hps] at hout
    obtain rfl : out = _ := (Option.some_injective _ hout).symm
    rfl

/-- Concrete instance of C10: growing with the initial `None` tail
position panics, growing after a recorded tail position succeeds, and a
concrete movement tick records a tail position. -/
theorem growSnake_requires_prior_move_witness :
    grow_snake [⟨2, 2⟩] none true = none ∧
    grow_snake [⟨2, 2⟩] (some ⟨1, 2⟩) true = some ([⟨2, 2⟩] ++ [⟨1, 2⟩]) ∧
    (⟨⟨.up, [⟨2, 3⟩, ⟨2, 2⟩]⟩, some ⟨1, 2⟩, false⟩ :
      MoveOutcome).lastTail.isSome = true :=
  ⟨growSnake_requires_prior_move.1 [⟨2, 2⟩],
   growSnake_requires_prior_move.2.1 [⟨2, 2⟩] ⟨1, 2⟩,
   growSnake_requires_prior_move.2.2 ⟨15, 15⟩ .up ⟨.right, [⟨2, 2⟩, ⟨1, 2⟩]⟩
     _ rfl⟩

/-- Component-wise subtraction on positions, unfolded. -/
lemma Position.sub_def (a b : Position) : a - b = ⟨a.x - b.x, a.y - b.y⟩ := rfl

/-- C6: handling a `GameOverEvent` yields the same state no matter what
state caused the game over: all positioned entities are despawned (the
food is gone), the pending direction is reset to Right, the respawned
snake has exactly two segments with the head at the arena center facing
Right and the second segment one cell to its left, and a `FoodEvent` is
emitted. -/
theorem gameOver_reset_spec (arena : Arena) (g g' : GameState) :
    game_over arena g true = game_over arena g' true ∧
    (game_over arena g true).2 = true ∧
    (game_over arena g true).1.food = none ∧
    (game_over arena g true).1.latest = .right ∧
    (game_over arena g true).1.snake.headDir = .right ∧
    (game_over arena g true).1.snake.positions.length = 2 ∧
    (game_over arena g true).1.snake.positions =
      [⟨((arena.width / 2 : Nat) : Int), ((arena.height / 2 : Nat) : Int)⟩,
       ⟨((arena.width / 2 : Nat) : Int) - 1, ((arena.height / 2 : Nat) : Int)⟩] := by
  refine ⟨rfl, rfl, rfl, rfl, rfl, rfl, ?_⟩
  show (spawn_snake arena).positions = _
  simp [spawn_snake, Position.sub_def]

/-- Membership in the enumeration of all arena cells. -/
lemma mem_all_positions (arena : Arena) (q : Position) :
    q ∈ all_positions arena ↔
      ∃ x, x < arena.width ∧ ∃ y, y < arena.height ∧
        q = ⟨(x : Int), (y : Int)⟩ := by
  simp only [all_positions, List.mem_flatMap, List.mem_map, List.mem_range]
  constructor
  · rintro ⟨x, hx, y, hy, rfl⟩
    exact ⟨x, hx, y, hy, rfl⟩
  · rintro ⟨x, hx, y, hy, rfl⟩
    exact ⟨x, hx, y, hy, rfl⟩

/-- The enumeration of all arena cells has no duplicates. -/
lemma nodup_all_positions (arena : Arena) : (all_positions arena).Nodup := by
  rw [all_positions, List.nodup_flatMap]
  constructor
  · intro x _
    refine List.Nodup.map ?_ (List.nodup_range _)
    intro y1 y2 hy
    have : ((y1 : Int)) = (y2 : Int) := congrArg Position.y hy
    exact_mod_cast this
  · refine (List.pairwise_lt_range arena.width).imp ?_
    intro x1 x2 hlt
    intro q hq1 hq2
    simp only [List.mem_map, List.mem_range] at hq1 hq2
    obtain ⟨y1, _, rfl⟩ := hq1
    obtain ⟨y2, _, heq⟩ := hq2
    have : ((x2 : Int)) = (x1 : Int) := congrArg Position.x heq
    have : x2 = x1 := by exact_mod_cast this
    omega

/-- The enumeration of all arena cells has width · height entries. -/
lemma length_all_positions (arena : Arena) :
    (all_positions arena).length = arena.width * arena.height := by
  rw [all_positions, List.length_flatMap]
  simp only [Function.comp_def, List.length_map, List.length_range]
  rw [List.map_const', List.sum_replicate, List.length_range, smul_eq_mul]

/-- An index query into a list is `some` exactly below the length. -/
lemma isSome_getElem?_iff {α : Type} (l : List α) (i : Nat) :
    l[i]?.isSome ↔ i < l.length := by
  rw [Option.isSome_iff_exists]
  constructor
  · rintro ⟨a, ha⟩
    exact (List.getElem?_eq_some.mp ha).1
  · intro h
    exact ⟨l[i], List.getElem?_eq_getElem h⟩

/-- C5: every food position produced by the placement algorithm lies in
`[0,width) × [0,height)` and is distinct from every occupied cell;
placement succeeds whenever fewer distinct cells are occupied than the
arena holds, and fails only when every arena cell is occupied. -/
theorem generateRandomPosition_spec (arena : Arena) (taken : List Position)
    (choice : Nat) :
    (∀ q, generate_random_position arena taken choice = some q →
      (0 ≤ q.x ∧ q.x < (arena.width : Int) ∧
        0 ≤ q.y ∧ q.y < (arena.height : Int)) ∧ q ∉ taken) ∧
    (taken.dedup.length < arena.width * arena.height →
      (generate_random_position arena taken choice).isSome = true) ∧
    (generate_random_position arena taken choice = none →
      ∀ q ∈ all_positions arena, q ∈ taken) := by
  have hfull : ((all_positions arena).filter
      fun q => !decide (q ∈ taken)) = [] →
      ∀ q ∈ all_positions arena, q ∈ taken := by
    intro hnil q hq
    have := List.filter_eq_nil_iff.mp hnil q hq
    simpa using this
  refine ⟨?_, ?_, ?_⟩
  · intro q hq
    have hmem : q ∈ (all_positions arena).filter
        fun r => !decide (r ∈ taken) := by
      obtain ⟨hlt, rfl⟩ := List.getElem?_eq_some.mp hq
      exact List.getElem_mem hlt
    rw [List.mem_filter] at hmem
    obtain ⟨hall, hnot⟩ := hmem
    refine ⟨?_, by simpa using hnot⟩
    obtain ⟨x, hx, y, hy, rfl⟩ := (mem_all_positions arena q).mp hall
    refine ⟨Int.ofNat_nonneg x, ?_, Int.ofNat_nonneg y, ?_⟩
    · show (x : Int) < (arena.width : Int)
      exact_mod_cast hx
    · show (y : Int) < (arena.height : Int)
      exact_mod_cast hy
  · intro hcard
    set remaining := (all_positions arena).filter
      fun q => !decide (q ∈ taken) with hrem
    have hne : remaining ≠ [] := by
      intro hnil
      have hsub : (all_positions arena).toFinset ⊆ taken.toFinset := by
        intro q hq
        rw [List.mem_toFinset] at hq ⊢
        exact hfull hnil q hq
      have hle := Finset.card_le_card hsub
      rw [List.toFinset_card_of_nodup (nodup_all_positions arena),
        length_all_positions, List.card_toFinset] at hle
      omega
    show ((remaining)[choice % remaining.length]?).isSome = true
    rw [isSome_getElem?_iff]
    have hpos : 0 < remaining.length := List.length_pos.mpr hne
    exact Nat.mod_lt _ hpos
  · intro hnone
    set remaining := (all_positions arena).filter
      fun q => !decide (q ∈ taken) with hrem
    have hnone' : remaining[choice % remaining.length]? = none := hnone
    have hnil : remaining = [] := by
      by_contra hne
      have hpos : 0 < remaining.length := List.length_pos.mpr hne
      have hsome : (remaining[choice % remaining.length]?).isSome = true := by
        rw [isSome_getElem?_iff]
        exact Nat.mod_lt _ hpos
      rw [hnone'] at hsome
      exact Bool.noConfusion hsome
    exact hfull hnil

/-- Concrete instance of C5: in a 2×2 arena with (0,0) occupied, the
draw 0 places the food at (0,1), which is in bounds and unoccupied, and
placement succeeds. -/
theorem generateRandomPosition_spec_witness :
    ((0 ≤ (Position.mk 0 1).x ∧ (Position.mk 0 1).x < ((2 : Nat) : Int) ∧
      0 ≤ (Position.mk 0 1).y ∧ (Position.mk 0 1).y < ((2 : Nat) : Int)) ∧
      Position.mk 0 1 ∉ [Position.mk 0 0]) ∧
    (generate_random_position ⟨2, 2⟩ [Position.mk 0 0] 0).isSome = true :=
  ⟨(generateRandomPosition_spec ⟨2, 2⟩ [Position.mk 0 0] 0).1 ⟨0, 1⟩ (by decide),
   (generateRandomPosition_spec ⟨2, 2⟩ [Position.mk 0 0] 0).2.1 (by decide)⟩

/-- C9 (code bug): a directional intent arriving while no snake head
exists is not ignored — `update_latest_state` unwraps the empty head
query and panics (modelled by `none`), instead of leaving the pending
direction unchanged as the design prescribes. -/
theorem updateLatestState_panics_without_head :
    update_latest_state ⟨true, false, false, false⟩ .right [] = none := rfl

/-- Indexing a list at an index reduced modulo its length succeeds or
fails independently of the index. -/
lemma isSome_getElem?_mod {α : Type} (l : List α) (d₁ d₂ : Nat) :
    (l[d₁ % l.length]?).isSome = (l[d₂ % l.length]?).isSome := by
  cases l with
  | nil => rfl
  | cons a t =>
    have h1 : d₁ % (a :: t).length < (a :: t).length :=
      Nat.mod_lt _ (by simp)
    have h2 : d₂ % (a :: t).length < (a :: t).length :=
      Nat.mod_lt _ (by simp)
    have e1 : ((a :: t)[d₁ % (a :: t).length]?).isSome = true :=
      (isSome_getElem?_iff _ _).mpr h1
    have e2 : ((a :: t)[d₂ % (a :: t).length]?).isSome = true :=
      (isSome_getElem?_iff _ _).mpr h2
    rw [e1, e2]

/-- The draw decides only which free cell is picked, never whether
placement succeeds. -/
lemma generate_isSome_eq (arena : Arena) (taken : List Position)
    (d₁ d₂ : Nat) :
    (generate_random_position arena taken d₁).isSome =
      (generate_random_position arena taken d₂).isSome :=
  isSome_getElem?_mod ((all_positions arena).filter fun q => !decide (q ∈ taken))
    d₁ d₂

/-- Whether `spawn_food` succeeds does not depend on the draw. -/
lemma spawn_food_isSome_eq (arena : Arena) (occ : List Position)
    (foodEv : Bool) (oldFood : Option Position) (d₁ d₂ : Nat) :
    (spawn_food arena occ foodEv oldFood d₁).isSome =
      (spawn_food arena occ foodEv oldFood d₂).isSome := by
  unfold spawn_food
  cases foodEv with
  | false => rfl
  | true =>
    have h := generate_isSome_eq arena occ d₁ d₂
    cases hg1 : generate_random_position arena occ d₁ with
    | none =>
      cases hg2 : generate_random_position arena occ d₂ with
      | none => rfl
      | some q2 =>
        rw [hg1, hg2] at h
        exact Bool.noConfusion h
    | some q1 =>
      cases hg2 : generate_random_position arena occ d₂ with
      | none =>
        rw [hg1, hg2] at h
        exact Bool.noConfusion h
      | some q2 => rfl

/-- C8 (amended): a tick is a pure function of the state, the pending
direction and the RNG draw; whether it succeeds and every component of
the resulting state other than the food position are moreover
independent of the draw. -/
theorem tick_deterministic_given_draw (arena : Arena) (w : World)
    (d₁ d₂ : Nat) :
    (tick arena w d₁).isSome = (tick arena w d₂).isSome ∧
    Option.map World.snake (tick arena w d₁) =
      Option.map World.snake (tick arena w d₂) ∧
    Option.map World.latest (tick arena w d₁) =
      Option.map World.latest (tick arena w d₂) ∧
    Option.map World.lastTail (tick arena w d₁) =
      Option.map World.lastTail (tick arena w d₂) := by
  unfold tick
  cases hmv : move_snake arena w.latest w.snake with
  | none => exact ⟨rfl, rfl, rfl, rfl⟩
  | some out =>
    dsimp only
    cases hps : out.snake.positions with
    | nil => exact ⟨rfl, rfl, rfl, rfl⟩
    | cons headPos tl =>
      dsimp only
      rcases hse : snake_eat headPos w.food with ⟨food1, growth, foodEv⟩
      dsimp only
      cases hgr : grow_snake (headPos :: tl) out.lastTail growth with
      | none => exact ⟨rfl, rfl, rfl, rfl⟩
      | some segs2 =>
        dsimp only
        cases hs1 : spawn_food arena (segs2 ++ food1.toList) foodEv food1 d₁ with
        | none =>
          cases hs2 : spawn_food arena (segs2 ++ food1.toList) foodEv food1 d₂ with
          | none => exact ⟨rfl, rfl, rfl, rfl⟩
          | some f2 =>
            have h := spawn_food_isSome_eq arena (segs2 ++ food1.toList)
              foodEv food1 d₁ d₂
            rw [hs1, hs2] at h
            exact Bool.noConfusion h
        | some f1 =>
          cases hs2 : spawn_food arena (segs2 ++ food1.toList) foodEv food1 d₂ with
          | none =>
            have h := spawn_food_isSome_eq arena (segs2 ++ food1.toList)
              foodEv food1 d₁ d₂
            rw [hs1, hs2] at h
            exact Bool.noConfusion h
          | some f2 =>
            dsimp only
            cases hgo : out.gameOver with
            | false => exact ⟨rfl, rfl, rfl, rfl⟩
            | true =>
              cases ht1 : spawn_food arena (spawn_snake arena).positions
                  true none d₁ with
              | none =>
                cases ht2 : spawn_food arena (spawn_snake arena).positions
                    true none d₂ with
                | none => exact ⟨rfl, rfl, rfl, rfl⟩
                | some f3 =>
                  have h := spawn_food_isSome_eq arena
                    (spawn_snake arena).positions true none d₁ d₂
                  rw [ht1, ht2] at h
                  exact Bool.noConfusion h
              | some f3 =>
                cases ht2 : spawn_food arena (spawn_snake arena).positions
                    true none d₂ with
                | none =>
                  have h := spawn_food_isSome_eq arena
                    (spawn_snake arena).positions true none d₁ d₂
                  rw [ht1, ht2] at h
                  exact Bool.noConfusion h
                | some f4 => exact ⟨rfl, rfl, rfl, rfl⟩

/-- C8 (counterexample): two ticks from the same state, with the same
pending direction and no further input, differ when the thread RNG
hands out different draws — the food lands on different cells, so the
run is not determined by the directional intents and ticks alone. -/
theorem tick_depends_on_draw :
    tick ⟨3, 3⟩ ⟨⟨.right, [⟨0, 0⟩]⟩, some ⟨1, 0⟩, .right, none⟩ 0 ≠
      tick ⟨3, 3⟩ ⟨⟨.right, [⟨0, 0⟩]⟩, some ⟨1, 0⟩, .right, none⟩ 1 := by
  decide
